import Mathlib

/-!
Verification development for the otel-front repository.

The Go sources are shallowly embedded: `time.Time` values are modelled as
integer nanoseconds since the epoch, Go `int`/`int64` as `Int`, Go `float64`
metric values as `ℚ`, and Go `map[string]interface{}` as an association list
with unique keys, wrapped in `Option` so that a `nil` map (`none`) stays
distinguishable from an empty one.  Fallible operations return `Except`.
-/

namespace OtelFront

/-- Attribute values stored in a `map[string]interface{}`, covering the value
shapes the transformers actually place in attribute maps: OTLP scalar values
plus the histogram bucket list and the summary quantile list built by
`transformHistogram` / `transformSummary`. -/
inductive AttrValue where
  | vStr (s : String)
  | vInt (i : Int)
  | vNum (q : ℚ)
  | vBool (b : Bool)
  | vBuckets (bs : List (Nat × Option ℚ))
  | vQuantiles (qs : List (ℚ × ℚ))
deriving DecidableEq, Repr

/-- Association-list representation of a non-nil Go map from string keys to
attribute values.  Go maps hold each key at most once; entry lists built by
the embedded operations preserve that invariant. -/
abbrev AttrEntries := List (String × AttrValue)

/-- Lookup of a key in a map, first (unique) matching entry. -/
def entriesLookup (es : AttrEntries) (k : String) : Option AttrValue :=
  (es.find? (fun p => p.1 == k)).map (fun p => p.2)

/-- Go map assignment `m[k] = v` on a non-nil map: replaces the entry if the
key is present, otherwise appends it. -/
def entriesSet (es : AttrEntries) (k : String) (v : AttrValue) : AttrEntries :=
  if es.any (fun p => p.1 == k) then
    es.map (fun p => if p.1 == k then (k, v) else p)
  else
    es ++ [(k, v)]

/-- A possibly-nil Go map: `none` is the nil map, `some es` a real map. -/
abbrev GoMap := Option AttrEntries

/-- Embeds `attributesToMap` (metrics_transformer.go): returns the nil map
when the OTLP attribute collection is empty, otherwise a map with the same
entries. -/
def attributesToMap (attrs : AttrEntries) : GoMap :=
  if attrs.isEmpty then none else some attrs

/-- Go map assignment `m[k] = v` where `m` may be nil: assignment to an entry
in a nil map is a runtime panic, modelled as `Except.error ()`. -/
def goMapSet (m : GoMap) (k : String) (v : AttrValue) : Except Unit GoMap :=
  match m with
  | none => .error ()
  | some es => .ok (some (entriesSet es k v))

/-- Core of `mergeAttributes`: starts from a fresh empty map, copies `m1`'s
entries in, then `m2`'s, so `m2` wins on key collisions. -/
def mergeEntries (m1 m2 : GoMap) : AttrEntries :=
  ((m1.getD []) ++ (m2.getD [])).foldl (fun acc p => entriesSet acc p.1 p.2) []

/-- Embeds `mergeAttributes` (metrics_transformer.go): always returns a
freshly made, non-nil map. -/
def mergeAttributes (m1 m2 : GoMap) : GoMap :=
  some (mergeEntries m1 m2)

/-- Embeds `extractServiceName`: the `service.name` resource attribute when it
is a string, otherwise `"unknown"`. -/
def extractServiceName (attrs : GoMap) : String :=
  match entriesLookup (attrs.getD []) "service.name" with
  | some (.vStr s) => s
  | _ => "unknown"

/-- Go `int64` division (`/`), which truncates toward zero. -/
def goQuot (a b : Int) : Int := Int.tdiv a b

/-- Span kind ordinals as used by ptrace (unspecified=0, internal=1, server=2,
client=3, producer=4, consumer=5). -/
abbrev SpanKind := Nat

/-- Embeds `spanKindToString`. -/
def spanKindToString (kind : SpanKind) : String :=
  match kind with
  | 1 => "internal"
  | 2 => "server"
  | 3 => "client"
  | 4 => "producer"
  | 5 => "consumer"
  | _ => "unspecified"

/-- An OTLP span as read by `TransformTraces`: identifiers are hex strings,
timestamps are nanoseconds, the status code is the ordinal (unset=0, ok=1,
error=2), and an empty parent id / status message means absent. -/
structure OtelSpan where
  traceID : String
  spanID : String
  name : String
  kind : SpanKind
  startNs : Int
  endNs : Int
  statusCode : Int
  statusMessage : String
  parentSpanID : String
  attrs : AttrEntries
deriving DecidableEq, Repr

/-- A scope-spans group inside a resource. -/
structure ScopeSpans where
  spans : List OtelSpan
deriving DecidableEq, Repr

/-- A resource-spans group: resource attributes plus scope groups. -/
structure ResourceSpans where
  resourceAttrs : AttrEntries
  scopes : List ScopeSpans
deriving DecidableEq, Repr

/-- Internal span model (`store.Span`); events and links are omitted as no
claim depends on them, all remaining columns are kept. -/
structure Span where
  spanID : String
  traceID : String
  parentSpanID : Option String
  serviceName : String
  operationName : String
  spanKind : String
  startNs : Int
  endNs : Int
  durationMs : Int
  statusCode : Int
  statusMessage : Option String
  attributes : GoMap
deriving DecidableEq, Repr

/-- Internal trace aggregate (`store.Trace`). -/
structure Trace where
  traceID : String
  serviceName : String
  operationName : String
  startNs : Int
  endNs : Int
  durationMs : Int
  spanCount : Int
  errorCount : Int
  statusCode : Int
  attributes : GoMap
  spans : List Span
deriving DecidableEq, Repr

/-- Generic association-list find used for the two working maps of
`TransformTraces`. -/
def alistFind {α : Type} (l : List (String × α)) (k : String) : Option α :=
  (l.find? (fun p => p.1 == k)).map (fun p => p.2)

/-- Updates the value stored under key `k` (no-op when absent). -/
def alistUpdate {α : Type} (l : List (String × α)) (k : String) (f : α → α) :
    List (String × α) :=
  l.map (fun p => if p.1 == k then (k, f p.2) else p)

/-- Appends `v` to the list stored under `k`, creating the key when absent
(embeds `allSpans[traceID] = append(allSpans[traceID], convertedSpan)`). -/
def alistAppend {α : Type} (l : List (String × List α)) (k : String) (v : α) :
    List (String × List α) :=
  if l.any (fun p => p.1 == k) then alistUpdate l k (fun vs => vs ++ [v])
  else l ++ [(k, [v])]

/-- Working state of `TransformTraces`: the trace-aggregate map and the
per-trace span-list map, both keyed by trace id.  Association lists in
first-insertion order stand in for Go's (unordered) maps; every claim about
the result is order-insensitive. -/
structure TransformState where
  traces : List (String × Trace)
  allSpans : List (String × List Span)

/-- Embeds the conversion of one OTLP span to a `store.Span` inside
`TransformTraces`, including the truncating nanosecond-to-millisecond
division for the duration. -/
def convertSpan (serviceName : String) (sp : OtelSpan) : Span :=
  { spanID := sp.spanID
    traceID := sp.traceID
    parentSpanID := if sp.parentSpanID != "" then some sp.parentSpanID else none
    serviceName := serviceName
    operationName := sp.name
    spanKind := spanKindToString sp.kind
    startNs := sp.startNs
    endNs := sp.endNs
    durationMs := goQuot (sp.endNs - sp.startNs) 1000000
    statusCode := sp.statusCode
    statusMessage := if sp.statusMessage != "" then some sp.statusMessage else none
    attributes := attributesToMap sp.attrs }

/-- Embeds the per-span body of the `TransformTraces` loop: record the span,
then create the trace aggregate (first-seen span of the trace id) or update
timing, span count and error count (subsequent spans). -/
def processSpan (resourceAttrs : GoMap) (serviceName : String)
    (st : TransformState) (sp : OtelSpan) : TransformState :=
  let cs := convertSpan serviceName sp
  let allSpans := alistAppend st.allSpans sp.traceID cs
  match alistFind st.traces sp.traceID with
  | none =>
    let tr : Trace :=
      { traceID := sp.traceID
        serviceName := serviceName
        operationName := sp.name
        startNs := cs.startNs
        endNs := cs.endNs
        durationMs := cs.durationMs
        spanCount := 1
        errorCount := 0
        statusCode := cs.statusCode
        attributes := mergeAttributes resourceAttrs cs.attributes
        spans := [] }
    { traces := st.traces ++ [(sp.traceID, tr)], allSpans := allSpans }
  | some _ =>
    let upd : Trace → Trace := fun tr =>
      let tr := { tr with spanCount := tr.spanCount + 1 }
      let tr := if cs.startNs < tr.startNs then { tr with startNs := cs.startNs } else tr
      let tr :=
        if cs.endNs > tr.endNs then
          { tr with endNs := cs.endNs,
                    durationMs := goQuot (cs.endNs - tr.startNs) 1000000 }
        else tr
      if cs.statusCode == 2 then { tr with errorCount := tr.errorCount + 1 } else tr
    { traces := alistUpdate st.traces sp.traceID upd, allSpans := allSpans }

/-- Embeds `TransformTraces` (metrics_transformer.go): folds every span of
every resource/scope group through `processSpan`, then attaches each trace's
accumulated span list. -/
def TransformTraces (td : List ResourceSpans) : List Trace :=
  let final := td.foldl
    (fun st rs =>
      let resourceAttrs := attributesToMap rs.resourceAttrs
      let serviceName := extractServiceName resourceAttrs
      rs.scopes.foldl
        (fun st ss => ss.spans.foldl (processSpan resourceAttrs serviceName) st)
        st)
    { traces := [], allSpans := [] }
  final.traces.map (fun p => { p.2 with spans := (alistFind final.allSpans p.1).getD [] })

/-- A log row (`store.LogRecord`); `none` trace/span ids model SQL NULL. -/
structure LogRecord where
  id : Int
  timestampNs : Int
  traceID : Option String
  spanID : Option String
  severityText : String
  severityNumber : Int
  body : String
  serviceName : String
  attributes : GoMap
  resourceAttributes : GoMap
deriving DecidableEq, Repr

/-- Filter parameters of the log queries (`store.LogFilters`); `none` start or
end time models the zero `time.Time` (filter inactive). -/
structure LogFilters where
  startTime : Option Int
  endTime : Option Int
  serviceName : String
  traceID : String
  minSeverity : Int
  searchText : String
  limit : Nat
  offset : Nat

/-- Substring test on character lists, the meaning of SQL `LIKE '%needle%'`
for a needle free of wildcard characters. -/
def charsContain (sub : List Char) : List Char → Bool
  | [] => sub.isEmpty
  | c :: t => sub.isPrefixOf (c :: t) || charsContain sub t

/-- Substring containment on strings. -/
def strContains (s sub : String) : Bool :=
  charsContain sub.toList s.toList

/-- Predicate accumulated by the `WHERE` clause of `GetLogs` (logs.go): each
conjunct is only added when its filter is active, and the trace-id equality
never matches a NULL trace id. -/
def logMatchesQuery (f : LogFilters) (l : LogRecord) : Bool :=
  (match f.startTime with | none => true | some t => decide (t ≤ l.timestampNs)) &&
  (match f.endTime with | none => true | some t => decide (l.timestampNs ≤ t)) &&
  (f.serviceName == "" || l.serviceName == f.serviceName) &&
  (f.traceID == "" || l.traceID == some f.traceID) &&
  (!(decide (0 < f.minSeverity)) || decide (f.minSeverity ≤ l.severityNumber)) &&
  (f.searchText == "" || strContains l.body f.searchText)

/-- Predicate accumulated by the `WHERE` clause of `CountLogs` (logs.go); the
source builds time, service, severity and search conjuncts but no trace-id
conjunct. -/
def logMatchesCount (f : LogFilters) (l : LogRecord) : Bool :=
  (match f.startTime with | none => true | some t => decide (t ≤ l.timestampNs)) &&
  (match f.endTime with | none => true | some t => decide (l.timestampNs ≤ t)) &&
  (f.serviceName == "" || l.serviceName == f.serviceName) &&
  (!(decide (0 < f.minSeverity)) || decide (f.minSeverity ≤ l.severityNumber)) &&
  (f.searchText == "" || strContains l.body f.searchText)

/-- Insertion step of a timestamp-descending sort (`ORDER BY timestamp DESC`;
relative order of equal timestamps is unspecified by SQL, one order is
picked). -/
def insertDescByTs (x : LogRecord) : List LogRecord → List LogRecord
  | [] => [x]
  | h :: t =>
    if h.timestampNs ≤ x.timestampNs then x :: h :: t else h :: insertDescByTs x t

/-- Timestamp-descending sort of a log list. -/
def sortLogsDesc (l : List LogRecord) : List LogRecord :=
  l.foldr insertDescByTs []

/-- Embeds `GetLogs` (logs.go): filter, order by timestamp descending, then
apply `OFFSET` and `LIMIT`. -/
def getLogs (db : List LogRecord) (f : LogFilters) : List LogRecord :=
  (((sortLogsDesc (db.filter (logMatchesQuery f))).drop f.offset).take f.limit)

/-- Embeds `CountLogs` (logs.go): `SELECT COUNT(*)` under the count
predicate. -/
def countLogs (db : List LogRecord) (f : LogFilters) : Nat :=
  (db.filter (logMatchesCount f)).length

/-- Embeds `InsertLog` (logs.go): a single auto-committed `INSERT`.  Whether
the database rejects a row (constraint violation, connection error, ...) is
abstracted by the environment predicate `failsOn`. -/
def insertLog (failsOn : LogRecord → Bool) (db : List LogRecord) (l : LogRecord) :
    Except String (List LogRecord) :=
  if failsOn l then .error "failed to insert log" else .ok (db ++ [l])

/-- Embeds `processLogs` (OTLP receiver): inserts each transformed record with
`InsertLog`, one statement at a time, stopping at the first failure.  Returns
the resulting store contents and the error, if any. -/
def processLogs (failsOn : LogRecord → Bool) (db : List LogRecord) :
    List LogRecord → List LogRecord × Option String
  | [] => (db, none)
  | l :: rest =>
    match insertLog failsOn db l with
    | .error e => (db, some e)
    | .ok db1 => processLogs failsOn db1 rest

/-- Staging loop of the `InsertLogs` transaction: inserts into the
transaction-local view, aborting on the first failure. -/
def insertLogsTx (failsOn : LogRecord → Bool) :
    List LogRecord → List LogRecord → Except String (List LogRecord)
  | staged, [] => .ok staged
  | staged, l :: rest =>
    if failsOn l then .error "failed to insert log"
    else insertLogsTx failsOn (staged ++ [l]) rest

/-- Embeds `InsertLogs` (logs.go): transactional batch insert, committing when
every row succeeds and rolling back to the original store otherwise. -/
def insertLogs (failsOn : LogRecord → Bool) (db : List LogRecord)
    (logs : List LogRecord) : List LogRecord × Option String :=
  if logs.isEmpty then (db, none)
  else
    match insertLogsTx failsOn db logs with
    | .ok db1 => (db1, none)
    | .error e => (db, some e)

/-- A metrics-table row as seen by `AggregateMetrics`: the timestamp is kept
at the epoch-second granularity the query buckets on, the `float64` value as
a rational. -/
structure MetricRow where
  epochSec : Int
  metricName : String
  serviceName : String
  value : ℚ
deriving DecidableEq, Repr

/-- Parameters of `AggregateMetrics` (`store.AggregationRequest`). -/
structure AggregationRequest where
  metricName : String
  serviceName : String
  startSec : Int
  endSec : Int
  aggregation : String
  bucketSize : String

/-- Embeds `parseBucketSizeToSeconds` (metrics store), defaulting to one
minute. -/
def parseBucketSizeToSeconds (bucketSize : String) : Int :=
  match bucketSize with
  | "1 minute" => 60
  | "5 minutes" => 300
  | "15 minutes" => 900
  | "30 minutes" => 1800
  | "1 hour" => 3600
  | "6 hours" => 21600
  | _ => 60

/-- SQL aggregate selected by the `aggFunc` switch of `AggregateMetrics`,
applied to the (nonempty) value list of one bucket; every string other than
sum/min/max/count falls through to `AVG`, as in the source. -/
def aggApply (agg : String) (vs : List ℚ) : ℚ :=
  match agg with
  | "sum" => vs.sum
  | "min" => (match vs with | [] => 0 | h :: t => t.foldl min h)
  | "max" => (match vs with | [] => 0 | h :: t => t.foldl max h)
  | "count" => (vs.length : ℚ)
  | _ => vs.sum / (vs.length : ℚ)

/-- Row predicate of the `AggregateMetrics` query: metric name, inclusive
time range, and optional service filter. -/
def rowMatches (req : AggregationRequest) (r : MetricRow) : Bool :=
  r.metricName == req.metricName &&
  decide (req.startSec ≤ r.epochSec) && decide (r.epochSec ≤ req.endSec) &&
  (req.serviceName == "" || r.serviceName == req.serviceName)

/-- Bucket expression of the `AggregateMetrics` query:
`(CAST(EXTRACT(epoch FROM timestamp) AS BIGINT) / w) * w`.  The store runs on
DuckDB, where the `/` operator performs float division even on integer
operands (`//` is the integer-division operator), so the expression is
`BIGINT / BIGINT → DOUBLE` followed by a `DOUBLE` multiplication; the double
arithmetic is modelled exactly over `ℚ`.  No flooring takes place, contrary
to the query's own comment. -/
def bucketOf (w : Int) (e : Int) : ℚ :=
  ((e : ℚ) / (w : ℚ)) * (w : ℚ)

/-- Insertion into a strictly ascending list, dropping duplicates — the
combined effect of SQL `GROUP BY bucket ORDER BY bucket ASC` on the bucket
column. -/
def sortedInsertDedup (x : ℚ) : List ℚ → List ℚ
  | [] => [x]
  | h :: t =>
    if x < h then x :: h :: t
    else if x == h then h :: t
    else h :: sortedInsertDedup x t

/-- Sorted deduplicated bucket list. -/
def sortBuckets (l : List ℚ) : List ℚ :=
  l.foldr sortedInsertDedup []

/-- Embeds `AggregateMetrics` (metrics store): filter the rows, group them by
the value of the bucket expression, and return one aggregated value per
distinct bucket value in ascending order.  Because DuckDB's `/` does not
floor, the bucket expression reproduces each row's own epoch second, so the
groups are the distinct row timestamps rather than width-`w` buckets. -/
def aggregateMetrics (db : List MetricRow) (req : AggregationRequest) :
    List (ℚ × ℚ) :=
  let w := parseBucketSizeToSeconds req.bucketSize
  let rows := db.filter (rowMatches req)
  (sortBuckets (rows.map (fun r => bucketOf w r.epochSec))).map
    (fun b =>
      (b, aggApply req.aggregation
        ((rows.filter (fun r => bucketOf w r.epochSec == b)).map (fun r => r.value))))

/-- Numeric payload of an OTLP number datapoint or exemplar: int, double, or
unset. -/
inductive NumValue where
  | intVal (i : Int)
  | doubleVal (q : ℚ)
  | unsetVal
deriving DecidableEq, Repr

/-- Embeds `extractNumericValue`, whose default branch yields 0. -/
def extractNumericValue (v : NumValue) : ℚ :=
  match v with
  | .intVal i => (i : ℚ)
  | .doubleVal q => q
  | .unsetVal => 0

/-- An OTLP exemplar as read by `convertExemplars`. -/
structure OtelExemplar where
  value : NumValue
  timestampNs : Int
  traceID : String
  spanID : String
  filteredAttrs : AttrEntries
deriving DecidableEq, Repr

/-- Internal exemplar model (`store.Exemplar`). -/
structure Exemplar where
  value : ℚ
  timestampNs : Int
  traceID : String
  spanID : String
  attributes : GoMap
deriving DecidableEq, Repr

/-- Embeds `convertExemplars`: nil for an empty slice, otherwise one converted
exemplar per input with the int/double switch defaulting to 0. -/
def convertExemplars (exs : List OtelExemplar) : List Exemplar :=
  if exs.isEmpty then []
  else exs.map (fun ex =>
    { value :=
        match ex.value with
        | .intVal i => (i : ℚ)
        | .doubleVal q => q
        | .unsetVal => 0
      timestampNs := ex.timestampNs
      traceID := ex.traceID
      spanID := ex.spanID
      attributes := attributesToMap ex.filteredAttrs })

/-- An OTLP number datapoint. -/
structure NumberDataPoint where
  timestampNs : Int
  attrs : AttrEntries
  value : NumValue
  exemplars : List OtelExemplar
deriving DecidableEq, Repr

/-- An OTLP histogram datapoint. -/
structure HistogramDataPoint where
  timestampNs : Int
  attrs : AttrEntries
  count : Nat
  histSum : ℚ
  bucketCounts : List Nat
  explicitBounds : List ℚ
  exemplars : List OtelExemplar
deriving DecidableEq, Repr

/-- An OTLP exponential-histogram datapoint. -/
structure ExpHistogramDataPoint where
  timestampNs : Int
  attrs : AttrEntries
  count : Nat
  histSum : ℚ
  scale : Int
  exemplars : List OtelExemplar
deriving DecidableEq, Repr

/-- An OTLP summary datapoint with its quantile/value pairs. -/
structure SummaryDataPoint where
  timestampNs : Int
  attrs : AttrEntries
  count : Nat
  quantileSum : ℚ
  quantiles : List (ℚ × ℚ)
deriving DecidableEq, Repr

/-- Internal metric model (`store.MetricRecord`). -/
structure MetricRecord where
  timestampNs : Int
  metricName : String
  metricType : String
  serviceName : String
  value : Option ℚ
  attributes : GoMap
  exemplars : List Exemplar
deriving DecidableEq, Repr

/-- Embeds `transformGauge`: one record per datapoint, attributes freshly
merged from resource and datapoint attributes. -/
def transformGauge (dps : List NumberDataPoint) (metricName serviceName : String)
    (resourceAttrs : GoMap) : List MetricRecord :=
  dps.map (fun dp =>
    { timestampNs := dp.timestampNs
      metricName := metricName
      metricType := "gauge"
      serviceName := serviceName
      value := some (extractNumericValue dp.value)
      attributes := mergeAttributes resourceAttrs (attributesToMap dp.attrs)
      exemplars := convertExemplars dp.exemplars })

/-- Embeds `transformSum`, identical to the gauge case but for the type tag. -/
def transformSum (dps : List NumberDataPoint) (metricName serviceName : String)
    (resourceAttrs : GoMap) : List MetricRecord :=
  dps.map (fun dp =>
    { timestampNs := dp.timestampNs
      metricName := metricName
      metricType := "sum"
      serviceName := serviceName
      value := some (extractNumericValue dp.value)
      attributes := mergeAttributes resourceAttrs (attributesToMap dp.attrs)
      exemplars := convertExemplars dp.exemplars })

/-- Embeds `transformHistogram`: the count/sum/buckets keys are written into
the map returned by `attributesToMap` for the datapoint's own attributes —
those writes panic (`Except.error ()`) when that map is nil. -/
def transformHistogram (dps : List HistogramDataPoint)
    (metricName serviceName : String) (resourceAttrs : GoMap) :
    Except Unit (List MetricRecord) :=
  dps.foldlM
    (fun recs dp => do
      let attrs := attributesToMap dp.attrs
      let attrs ← goMapSet attrs "count" (.vInt (dp.count : Int))
      let attrs ← goMapSet attrs "sum" (.vNum dp.histSum)
      let buckets := dp.bucketCounts.enum.map (fun p => (p.2, dp.explicitBounds[p.1]?))
      let attrs ← goMapSet attrs "buckets" (.vBuckets buckets)
      .ok (recs ++
        [{ timestampNs := dp.timestampNs
           metricName := metricName
           metricType := "histogram"
           serviceName := serviceName
           value := some dp.histSum
           attributes := mergeAttributes resourceAttrs attrs
           exemplars := convertExemplars dp.exemplars }]))
    []

/-- Embeds `transformExponentialHistogram`: writes count, sum and scale into
the possibly-nil datapoint attribute map. -/
def transformExponentialHistogram (dps : List ExpHistogramDataPoint)
    (metricName serviceName : String) (resourceAttrs : GoMap) :
    Except Unit (List MetricRecord) :=
  dps.foldlM
    (fun recs dp => do
      let attrs := attributesToMap dp.attrs
      let attrs ← goMapSet attrs "count" (.vInt (dp.count : Int))
      let attrs ← goMapSet attrs "sum" (.vNum dp.histSum)
      let attrs ← goMapSet attrs "scale" (.vInt dp.scale)
      .ok (recs ++
        [{ timestampNs := dp.timestampNs
           metricName := metricName
           metricType := "exponential_histogram"
           serviceName := serviceName
           value := some dp.histSum
           attributes := mergeAttributes resourceAttrs attrs
           exemplars := convertExemplars dp.exemplars }]))
    []

/-- Embeds `transformSummary`: writes count, sum and quantiles into the
possibly-nil datapoint attribute map; summary records carry no exemplars. -/
def transformSummary (dps : List SummaryDataPoint)
    (metricName serviceName : String) (resourceAttrs : GoMap) :
    Except Unit (List MetricRecord) :=
  dps.foldlM
    (fun recs dp => do
      let attrs := attributesToMap dp.attrs
      let attrs ← goMapSet attrs "count" (.vInt (dp.count : Int))
      let attrs ← goMapSet attrs "sum" (.vNum dp.quantileSum)
      let attrs ← goMapSet attrs "quantiles" (.vQuantiles dp.quantiles)
      .ok (recs ++
        [{ timestampNs := dp.timestampNs
           metricName := metricName
           metricType := "summary"
           serviceName := serviceName
           value := some dp.quantileSum
           attributes := mergeAttributes resourceAttrs attrs
           exemplars := [] }]))
    []

/-- Payload of one OTLP metric, by type. -/
inductive MetricData where
  | gauge (dps : List NumberDataPoint)
  | sumMetric (dps : List NumberDataPoint)
  | histogram (dps : List HistogramDataPoint)
  | exponentialHistogram (dps : List ExpHistogramDataPoint)
  | summary (dps : List SummaryDataPoint)
deriving DecidableEq, Repr

/-- A named OTLP metric. -/
structure Metric where
  name : String
  data : MetricData
deriving DecidableEq, Repr

/-- A scope-metrics group. -/
structure ScopeMetrics where
  metrics : List Metric
deriving DecidableEq, Repr

/-- A resource-metrics group. -/
structure ResourceMetrics where
  resourceAttrs : AttrEntries
  scopes : List ScopeMetrics
deriving DecidableEq, Repr

/-- Embeds `TransformMetrics` (metrics_transformer.go): dispatches each metric
on its type and concatenates the records; a panic in any histogram,
exponential-histogram, or summary transform aborts the whole call. -/
def TransformMetrics (md : List ResourceMetrics) : Except Unit (List MetricRecord) :=
  md.foldlM
    (fun acc rm =>
      let resourceAttrs := attributesToMap rm.resourceAttrs
      let serviceName := extractServiceName resourceAttrs
      rm.scopes.foldlM
        (fun acc sm =>
          sm.metrics.foldlM
            (fun acc m =>
              match m.data with
              | .gauge dps =>
                .ok (acc ++ transformGauge dps m.name serviceName resourceAttrs)
              | .sumMetric dps =>
                .ok (acc ++ transformSum dps m.name serviceName resourceAttrs)
              | .histogram dps => do
                let rs ← transformHistogram dps m.name serviceName resourceAttrs
                .ok (acc ++ rs)
              | .exponentialHistogram dps => do
                let rs ← transformExponentialHistogram dps m.name serviceName resourceAttrs
                .ok (acc ++ rs)
              | .summary dps => do
                let rs ← transformSummary dps m.name serviceName resourceAttrs
                .ok (acc ++ rs))
            acc)
        acc)
    []

/-- A traces-table row: the `store.Trace` columns persisted by `InsertTrace`
(the span list is stored separately in the spans table). -/
structure TraceRow where
  traceID : String
  serviceName : String
  operationName : String
  startNs : Int
  endNs : Int
  durationMs : Int
  spanCount : Int
  errorCount : Int
  statusCode : Int
  attributes : GoMap
deriving DecidableEq, Repr

/-- Row written for a fresh trace id. -/
def TraceRow.ofTrace (t : Trace) : TraceRow :=
  { traceID := t.traceID
    serviceName := t.serviceName
    operationName := t.operationName
    startNs := t.startNs
    endNs := t.endNs
    durationMs := t.durationMs
    spanCount := t.spanCount
    errorCount := t.errorCount
    statusCode := t.statusCode
    attributes := t.attributes }

/-- Database state touched by `InsertTrace`: the traces table and the spans
table (span rows carry exactly the `store.Span` columns). -/
structure TraceDb where
  traces : List TraceRow
  spans : List Span
deriving DecidableEq, Repr

/-- The `DO UPDATE SET` column list of the trace upsert: only end time,
duration, span count and error count are taken from the excluded row. -/
def applyTraceUpdate (t : Trace) (r : TraceRow) : TraceRow :=
  { r with endNs := t.endNs, durationMs := t.durationMs,
           spanCount := t.spanCount, errorCount := t.errorCount }

/-- Embeds the trace upsert of `InsertTrace` (traces.go):
`ON CONFLICT (trace_id) DO UPDATE SET` replaces only the end time, duration,
span count and error count of the conflicting row. -/
def upsertTraceRow (tbl : List TraceRow) (t : Trace) : List TraceRow :=
  if tbl.any (fun r => r.traceID == t.traceID) then
    tbl.map (fun r => if r.traceID == t.traceID then applyTraceUpdate t r else r)
  else tbl ++ [TraceRow.ofTrace t]

/-- Embeds `insertSpan` (traces.go): `ON CONFLICT (span_id) DO NOTHING` — a
row whose span id already exists leaves the table untouched. -/
def insertSpanRow (tbl : List Span) (s : Span) : List Span :=
  if tbl.any (fun r => r.spanID == s.spanID) then tbl else tbl ++ [s]

/-- Embeds `InsertTrace` (traces.go): upsert the trace row, then insert each
child span with ignore-on-conflict semantics. -/
def insertTrace (db : TraceDb) (t : Trace) : TraceDb :=
  { traces := upsertTraceRow db.traces t
    spans := t.spans.foldl insertSpanRow db.spans }

/-- First row of the traces table with the given trace id. -/
def findTraceRow (tbl : List TraceRow) (id : String) : Option TraceRow :=
  tbl.find? (fun r => r.traceID == id)

/-- First row of the spans table with the given span id. -/
def findSpanRow (tbl : List Span) (id : String) : Option Span :=
  tbl.find? (fun r => r.spanID == id)

/-- Heap of Go attribute maps, identifying each live map by a numeric
reference so that mutation (or its absence) is observable: `next` is the next
fresh reference, `cells` the allocated maps. -/
structure MapHeap where
  next : Nat
  cells : List (Nat × AttrEntries)

/-- Dereferences a map in the heap. -/
def heapFind (h : MapHeap) (r : Nat) : Option AttrEntries :=
  (h.cells.find? (fun c => c.1 == r)).map (fun c => c.2)

/-- Embeds `mergeAttributes` against the heap: reads both inputs (a `none`
reference is the nil map), builds the merged entries in a freshly allocated
map, and returns the heap with the new cell plus its reference; no existing
cell is written. -/
def mergeAttributesH (h : MapHeap) (m1 m2 : Option Nat) : MapHeap × Nat :=
  let e1 : GoMap := m1.bind (heapFind h)
  let e2 : GoMap := m2.bind (heapFind h)
  let merged := mergeEntries e1 e2
  (⟨h.next + 1, h.cells ++ [(h.next, merged)]⟩, h.next)

/-- Outcome of the `CompareTraces` handler before any storage access: either
an immediate HTTP 400 client error, or the decision to fetch exactly the
requested trace ids from storage. -/
inductive CompareOutcome where
  | clientError (msg : String)
  | fetchTraces (ids : List String)
deriving DecidableEq, Repr

/-- Binding validation of `CompareTracesRequest`
(`binding:"required,min=2,max=4"` on the trace-ids slice): the slice length
must lie between 2 and 4. -/
def bindingValidates (ids : List String) : Bool :=
  decide (2 ≤ ids.length) && decide (ids.length ≤ 4)

/-- Embeds `CompareTraces` (traces handler) up to its first storage access:
a binding failure or an out-of-range id count yields a 400 response, and only
a list of 2 to 4 ids proceeds to fetch the traces. -/
def compareTraces (ids : List String) : CompareOutcome :=
  if !(bindingValidates ids) then
    .clientError "Invalid request body. Must provide 2-4 trace_ids"
  else if ids.length < 2 || 4 < ids.length then
    .clientError "Must provide between 2 and 4 trace_ids"
  else
    .fetchTraces ids

/-- Single span whose status is Error (ordinal 2), the first — and only —
span of its trace id. -/
def spC1 : OtelSpan :=
  { traceID := "t1", spanID := "s1", name := "op", kind := 2,
    startNs := 0, endNs := 1000000, statusCode := 2, statusMessage := "",
    parentSpanID := "", attrs := [] }

/-- Batch containing exactly the single error span. -/
def batchC1 : List ResourceSpans :=
  [{ resourceAttrs := [("service.name", .vStr "svc")],
     scopes := [{ spans := [spC1] }] }]

/-- First span of a two-span trace: seconds 10 to 20. -/
def spC2a : OtelSpan :=
  { traceID := "t1", spanID := "s1", name := "op", kind := 2,
    startNs := 10000000000, endNs := 20000000000, statusCode := 0,
    statusMessage := "", parentSpanID := "", attrs := [] }

/-- Second span of the same trace, widening the start backward (seconds 5 to
15) without extending the end. -/
def spC2b : OtelSpan :=
  { traceID := "t1", spanID := "s2", name := "op2", kind := 2,
    startNs := 5000000000, endNs := 15000000000, statusCode := 0,
    statusMessage := "", parentSpanID := "", attrs := [] }

/-- Batch whose second span only widens the trace's start time. -/
def batchC2 : List ResourceSpans :=
  [{ resourceAttrs := [("service.name", .vStr "svc")],
     scopes := [{ spans := [spC2a, spC2b] }] }]

/-- A log record the database accepts. -/
def logGood : LogRecord :=
  { id := 0, timestampNs := 100, traceID := some "t1", spanID := none,
    severityText := "INFO", severityNumber := 9, body := "ok",
    serviceName := "svc", attributes := none, resourceAttributes := none }

/-- A log record whose insert the database rejects. -/
def logBad : LogRecord :=
  { logGood with body := "boom", timestampNs := 200 }

/-- Environment in which exactly the records with body `"boom"` fail to
insert. -/
def failsOnBoom (l : LogRecord) : Bool :=
  l.body == "boom"

/-- Log row with trace id `a`. -/
def logA : LogRecord :=
  { id := 1, timestampNs := 100, traceID := some "a", spanID := none,
    severityText := "INFO", severityNumber := 9, body := "hello",
    serviceName := "svc", attributes := none, resourceAttributes := none }

/-- Log row with trace id `b`. -/
def logB : LogRecord :=
  { id := 2, timestampNs := 200, traceID := some "b", spanID := none,
    severityText := "INFO", severityNumber := 9, body := "world",
    serviceName := "svc", attributes := none, resourceAttributes := none }

/-- Filter set whose only active filter is the trace id `a`, with pagination
wide enough to be irrelevant. -/
def filtersC4 : LogFilters :=
  { startTime := none, endTime := none, serviceName := "", traceID := "a",
    minSeverity := 0, searchText := "", limit := 100, offset := 0 }

/-- Ten metric points one minute apart starting at the 5-minute-aligned epoch
second 600, carrying the values 1 through 10. -/
def dbC5 : List MetricRow :=
  [{ epochSec := 600, metricName := "m", serviceName := "svc", value := 1 },
   { epochSec := 660, metricName := "m", serviceName := "svc", value := 2 },
   { epochSec := 720, metricName := "m", serviceName := "svc", value := 3 },
   { epochSec := 780, metricName := "m", serviceName := "svc", value := 4 },
   { epochSec := 840, metricName := "m", serviceName := "svc", value := 5 },
   { epochSec := 900, metricName := "m", serviceName := "svc", value := 6 },
   { epochSec := 960, metricName := "m", serviceName := "svc", value := 7 },
   { epochSec := 1020, metricName := "m", serviceName := "svc", value := 8 },
   { epochSec := 1080, metricName := "m", serviceName := "svc", value := 9 },
   { epochSec := 1140, metricName := "m", serviceName := "svc", value := 10 }]

/-- Aggregation request over the ten points with `avg` and 5-minute buckets. -/
def reqAvg : AggregationRequest :=
  { metricName := "m", serviceName := "", startSec := 600, endSec := 1140,
    aggregation := "avg", bucketSize := "5 minutes" }

/-- Same request with `sum`. -/
def reqSum : AggregationRequest :=
  { reqAvg with aggregation := "sum" }

/-- Histogram datapoint carrying zero attributes. -/
def histDpNoAttrs : HistogramDataPoint :=
  { timestampNs := 0, attrs := [], count := 5, histSum := 10,
    bucketCounts := [5], explicitBounds := [], exemplars := [] }

/-- OTLP metric payload with a single zero-attribute histogram datapoint. -/
def payloadC6 : List ResourceMetrics :=
  [{ resourceAttrs := [("service.name", .vStr "svc")],
     scopes := [{ metrics := [{ name := "h", data := .histogram [histDpNoAttrs] }] }] }]

/-- The same histogram datapoint with one attribute. -/
def histDpOneAttr : HistogramDataPoint :=
  { histDpNoAttrs with attrs := [("k", .vStr "v")] }

/-- The same payload with a one-attribute histogram datapoint. -/
def payloadC6ok : List ResourceMetrics :=
  [{ resourceAttrs := [("service.name", .vStr "svc")],
     scopes := [{ metrics := [{ name := "h", data := .histogram [histDpOneAttr] }] }] }]

/-- Entries of the first map in the merge example. -/
def entriesC9a : AttrEntries :=
  [("a", .vStr "x"), ("c", .vInt 1)]

/-- Entries of the second map in the merge example; its key `a` collides with
the first map's. -/
def entriesC9b : AttrEntries :=
  [("a", .vStr "y"), ("b", .vStr "z")]

/-- Heap holding the two example maps at references 0 and 1. -/
def heapC9 : MapHeap :=
  { next := 2, cells := [(0, entriesC9a), (1, entriesC9b)] }

/-- Stored trace row of an earlier batch. -/
def rowC7 : TraceRow :=
  { traceID := "t1", serviceName := "svcA", operationName := "opA",
    startNs := 100, endNs := 200, durationMs := 1, spanCount := 1,
    errorCount := 0, statusCode := 0, attributes := some [("k", .vStr "v")] }

/-- Later batch for the same trace id with entirely different values. -/
def tC7 : Trace :=
  { traceID := "t1", serviceName := "svcB", operationName := "opB",
    startNs := 50, endNs := 500, durationMs := 2, spanCount := 3,
    errorCount := 1, statusCode := 2, attributes := some [("k2", .vStr "w")],
    spans := [] }

/-- Database already holding the earlier batch's trace row. -/
def dbC7 : TraceDb :=
  { traces := [rowC7], spans := [] }

/-- Span row stored by an earlier ingestion. -/
def spanRowC8 : Span :=
  { spanID := "s1", traceID := "t1", parentSpanID := none,
    serviceName := "svcA", operationName := "opA", spanKind := "server",
    startNs := 100, endNs := 200, durationMs := 0, statusCode := 0,
    statusMessage := none, attributes := none }

/-- Re-ingested span with the same span id but different columns. -/
def spanDupC8 : Span :=
  { spanRowC8 with serviceName := "svcB", operationName := "opB", startNs := 1 }

/-- Trace batch carrying the duplicate span. -/
def tC8 : Trace :=
  { tC7 with spans := [spanDupC8] }

/-- Database already holding the original span row. -/
def dbC8 : TraceDb :=
  { traces := [], spans := [spanRowC8] }

/-- C1.  The claim that every emitted trace aggregate has `error_count` equal
to the number of its spans with status Error fails on the code: the branch
creating the aggregate for the first-encountered span of a trace id hardcodes
`ErrorCount: 0` and only subsequent spans are counted, so a batch whose only
span has status Error (ordinal 2) yields a trace with one error span but
`error_count = 0`. -/
theorem transformTraces_first_span_error_not_counted :
    (TransformTraces batchC1).map
      (fun t => (t.errorCount, (t.spans.filter (fun s => s.statusCode == 2)).length))
      = [(0, 1)] := by
  rfl

/-- C2.  The claim that `duration_ms = end_time - start_time` holds after
every span addition fails on the code: the duration is only recomputed inside
the branch that extends the end time, so a second span that widens the start
backward (span 2 covers seconds 5–15 after span 1 covered 10–20) leaves the
stale `duration_ms = 10000` while the true span of the trace is 15000 ms. -/
theorem transformTraces_duration_stale_on_start_widening :
    (TransformTraces batchC2).map
      (fun t => (t.durationMs, goQuot (t.endNs - t.startNs) 1000000))
      = [(10000, 15000)] ∧ (10000 : Int) ≠ 15000 := by
  exact ⟨rfl, by decide⟩

/-- C3.  The claim that one OTLP log ingestion call persists its batch
all-or-nothing fails on the code: the receiver's `processLogs` inserts each
record with the auto-committed single-row `InsertLog` instead of the
transactional `InsertLogs`, so when the second record of a two-record batch
fails, the first remains in the store; the unused transactional `InsertLogs`
on the same batch would have left the store empty. -/
theorem processLogs_partial_persist_on_failure :
    processLogs failsOnBoom [] [logGood, logBad]
      = ([logGood], some "failed to insert log") ∧
    insertLogs failsOnBoom [] [logGood, logBad]
      = ([], some "failed to insert log") := by
  exact ⟨rfl, rfl⟩

/-- C4.  The claim that `CountLogs` applies the same predicates as `GetLogs`,
including the trace-id filter, fails on the code: `CountLogs` never adds the
trace-id conjunct, so with a store of two logs under distinct trace ids and a
filter on trace id `a`, the query returns one row while the count reports
two. -/
theorem countLogs_ignores_trace_id_filter :
    countLogs [logA, logB] filtersC4 = 2 ∧
    (getLogs [logA, logB] filtersC4).length = 1 := by
  exact ⟨rfl, rfl⟩

/-- The bucket expression over exact rational arithmetic reproduces the
row's own epoch second whenever the bucket width is nonzero: dividing with
DuckDB's float `/` and multiplying back cancels instead of flooring. -/
theorem bucketOf_eq_self (w e : Int) (hw : w ≠ 0) : bucketOf w e = (e : ℚ) := by
  unfold bucketOf
  rw [div_mul_cancel₀]
  exact_mod_cast hw

/-- Projecting the first components back out of a keyed pairing. -/
theorem map_fst_map_pair {α β : Type} (L : List α) (g : α → β) :
    ((L.map (fun b => (b, g b))).map Prod.fst) = L := by
  induction L with
  | nil => rfl
  | cons a t ih => simp [ih]

/-- C5.  The claim that `AggregateMetrics` floors each row's epoch second to
`floor(epoch / width) * width` fails on the code: DuckDB's `/` is float
division, so the query's bucket expression `(epoch / w) * w` reproduces each
row's own timestamp and `GROUP BY bucket` groups by distinct timestamp.  On
the claim's own scenario (ten points one minute apart from the aligned
second 600, 5-minute buckets, `avg`) the query returns ten one-row groups
keyed by the original epoch seconds, not two buckets of five points. -/
theorem aggregateMetrics_no_bucketing :
    (∀ w e : Int, w ≠ 0 → bucketOf w e = (e : ℚ)) ∧
    (aggregateMetrics dbC5 reqAvg).map Prod.fst
      = [((600 : Int) : ℚ), ((660 : Int) : ℚ), ((720 : Int) : ℚ),
         ((780 : Int) : ℚ), ((840 : Int) : ℚ), ((900 : Int) : ℚ),
         ((960 : Int) : ℚ), ((1020 : Int) : ℚ), ((1080 : Int) : ℚ),
         ((1140 : Int) : ℚ)] ∧
    (aggregateMetrics dbC5 reqAvg).length = 10 ∧
    (aggregateMetrics dbC5 reqAvg).map
      (fun p => ((dbC5.filter (rowMatches reqAvg)).filter
        (fun r => bucketOf (parseBucketSizeToSeconds reqAvg.bucketSize) r.epochSec
          == p.1)).length)
      = [1, 1, 1, 1, 1, 1, 1, 1, 1, 1] := by
  have hb : ∀ e : Int,
      bucketOf (parseBucketSizeToSeconds reqAvg.bucketSize) e = (e : ℚ) :=
    fun e => bucketOf_eq_self _ e (by decide)
  have hmap : (aggregateMetrics dbC5 reqAvg).map Prod.fst
      = [((600 : Int) : ℚ), ((660 : Int) : ℚ), ((720 : Int) : ℚ),
         ((780 : Int) : ℚ), ((840 : Int) : ℚ), ((900 : Int) : ℚ),
         ((960 : Int) : ℚ), ((1020 : Int) : ℚ), ((1080 : Int) : ℚ),
         ((1140 : Int) : ℚ)] := by
    simp only [aggregateMetrics, hb]
    rw [map_fst_map_pair]
    decide
  refine ⟨fun w e hw => bucketOf_eq_self w e hw, hmap, ?_, ?_⟩
  · have := congrArg List.length hmap
    simpa using this
  · simp only [aggregateMetrics, hb]
    decide

/-- Witness for C5's quantified conjunct: at width 300 the bucket expression
maps epoch second 601 to 601 itself, not to the bucket floor 600. -/
theorem aggregateMetrics_no_bucketing_witness :
    bucketOf 300 601 = ((601 : Int) : ℚ) :=
  aggregateMetrics_no_bucketing.1 300 601 (by decide)

/-- C6.  The claim that `TransformMetrics` never panics fails on the code:
for a histogram datapoint with zero attributes, `attributesToMap` returns a
nil map and the subsequent `attrs["count"] = dp.Count()` write is an
assignment to an entry in a nil map, a Go runtime panic (modelled as
`Except.error ()`); with at least one datapoint attribute the same payload
succeeds and the record's attribute map carries the count, sum and buckets
keys. -/
theorem transformMetrics_nil_map_panic :
    TransformMetrics payloadC6 = Except.error () ∧
    (TransformMetrics payloadC6ok).map
      (fun recs => recs.map (fun r =>
        ((entriesLookup (r.attributes.getD []) "count").isSome,
         (entriesLookup (r.attributes.getD []) "sum").isSome,
         (entriesLookup (r.attributes.getD []) "buckets").isSome)))
      = Except.ok [(true, true, true)] := by
  exact ⟨rfl, rfl⟩

/-- C10.  The compare endpoint rejects, before any storage access, every
trace-id list with fewer than 2 or more than 4 entries with a client error,
and proceeds to fetch exactly the requested traces for every list of 2 to 4
ids. -/
theorem compareTraces_boundary (ids : List String) :
    ((ids.length < 2 ∨ 4 < ids.length) →
      compareTraces ids =
        .clientError "Invalid request body. Must provide 2-4 trace_ids") ∧
    (2 ≤ ids.length → ids.length ≤ 4 →
      compareTraces ids = .fetchTraces ids) := by
  constructor
  · intro h
    have hb : bindingValidates ids = false := by
      simp only [bindingValidates, Bool.and_eq_true, decide_eq_true_eq,
        Bool.eq_false_iff, ne_eq, not_and]
      omega
    simp [compareTraces, hb]
  · intro h2 h4
    have hb : bindingValidates ids = true := by
      simp only [bindingValidates, Bool.and_eq_true, decide_eq_true_eq]
      exact ⟨h2, h4⟩
    have hlt : ¬(ids.length < 2 || 4 < ids.length) = true := by
      simp only [Bool.or_eq_true, decide_eq_true_eq]
      omega
    simp [compareTraces, hb, hlt]

/-- Witness for C10 at one rejected and one accepted input. -/
theorem compareTraces_boundary_witness :
    compareTraces ["a"] =
      .clientError "Invalid request body. Must provide 2-4 trace_ids" ∧
    compareTraces ["a", "b"] = .fetchTraces ["a", "b"] := by
  exact ⟨(compareTraces_boundary ["a"]).1 (Or.inl (by decide)),
         (compareTraces_boundary ["a", "b"]).2 (by decide) (by decide)⟩

/-- A successful search implies a positive existence test. -/
theorem find?_imp_any {α : Type} (p : α → Bool) (l : List α) (r : α)
    (h : l.find? p = some r) : l.any p = true := by
  induction l with
  | nil => simp [List.find?] at h
  | cons a t ih =>
    by_cases hpa : p a = true
    · simp [List.any_cons, hpa]
    · rw [List.find?_cons_of_neg _ hpa] at h
      simp [List.any_cons, hpa, ih h]

/-- Searching the update-on-match image of a list finds the image of the
original match, provided the update preserves the key. -/
theorem find?_map_update (l : List TraceRow) (id : String) (g : TraceRow → TraceRow)
    (hg : ∀ r, (g r).traceID = r.traceID) :
    ((l.map (fun r => if r.traceID == id then g r else r)).find?
        (fun r => r.traceID == id))
      = (l.find? (fun r => r.traceID == id)).map g := by
  induction l with
  | nil => rfl
  | cons a t ih =>
    by_cases ha : (a.traceID == id) = true
    · have hga : ((g a).traceID == id) = true := by rw [hg]; exact ha
      rw [List.map_cons, if_pos ha,
        List.find?_cons_of_pos (p := fun (r : TraceRow) => r.traceID == id) _ hga,
        List.find?_cons_of_pos (p := fun (r : TraceRow) => r.traceID == id) _ ha]
      rfl
    · rw [List.map_cons, if_neg ha,
        List.find?_cons_of_neg (p := fun (r : TraceRow) => r.traceID == id) _ ha,
        List.find?_cons_of_neg (p := fun (r : TraceRow) => r.traceID == id) _ ha]
      exact ih

/-- C7.  When `InsertTrace` hits an existing trace id, the stored row keeps
its original trace id, service name, operation name, start time, status code
and attributes, while exactly the end time, duration, span count and error
count are replaced by the new batch's values. -/
theorem insertTrace_upsert_frame (db : TraceDb) (t : Trace) (r : TraceRow)
    (h : findTraceRow db.traces t.traceID = some r) :
    ∃ r2 : TraceRow,
      findTraceRow (insertTrace db t).traces t.traceID = some r2 ∧
      r2.traceID = r.traceID ∧ r2.serviceName = r.serviceName ∧
      r2.operationName = r.operationName ∧ r2.startNs = r.startNs ∧
      r2.statusCode = r.statusCode ∧ r2.attributes = r.attributes ∧
      r2.endNs = t.endNs ∧ r2.durationMs = t.durationMs ∧
      r2.spanCount = t.spanCount ∧ r2.errorCount = t.errorCount := by
  refine ⟨applyTraceUpdate t r, ?_, rfl, rfl, rfl, rfl, rfl, rfl, rfl, rfl, rfl, rfl⟩
  have hany : db.traces.any (fun x => x.traceID == t.traceID) = true :=
    find?_imp_any _ _ _ h
  show findTraceRow (upsertTraceRow db.traces t) t.traceID = _
  unfold upsertTraceRow
  rw [if_pos hany]
  unfold findTraceRow at h ⊢
  rw [find?_map_update db.traces t.traceID (applyTraceUpdate t) (fun _ => rfl), h]
  rfl

/-- Witness for C7: a second batch for trace `t1` updates only the four
volatile columns of the stored row. -/
theorem insertTrace_upsert_frame_witness :
    ∃ r2 : TraceRow,
      findTraceRow (insertTrace dbC7 tC7).traces tC7.traceID = some r2 ∧
      r2.traceID = rowC7.traceID ∧ r2.serviceName = rowC7.serviceName ∧
      r2.operationName = rowC7.operationName ∧ r2.startNs = rowC7.startNs ∧
      r2.statusCode = rowC7.statusCode ∧ r2.attributes = rowC7.attributes ∧
      r2.endNs = tC7.endNs ∧ r2.durationMs = tC7.durationMs ∧
      r2.spanCount = tC7.spanCount ∧ r2.errorCount = tC7.errorCount :=
  insertTrace_upsert_frame dbC7 tC7 rowC7 rfl

/-- Ignore-on-conflict insertion never disturbs an existing search result. -/
theorem findSpanRow_insertSpanRow (tbl : List Span) (s : Span) (sid : String)
    (r : Span) (h : findSpanRow tbl sid = some r) :
    findSpanRow (insertSpanRow tbl s) sid = some r := by
  unfold insertSpanRow
  by_cases hc : tbl.any (fun x => x.spanID == s.spanID) = true
  · rw [if_pos hc]
    exact h
  · rw [if_neg hc]
    unfold findSpanRow at h ⊢
    rw [List.find?_append, h]
    rfl

/-- Folding a span batch through ignore-on-conflict insertion never disturbs
an existing search result. -/
theorem findSpanRow_foldl (ss : List Span) (tbl : List Span) (sid : String)
    (r : Span) (h : findSpanRow tbl sid = some r) :
    findSpanRow (ss.foldl insertSpanRow tbl) sid = some r := by
  induction ss generalizing tbl with
  | nil => exact h
  | cons s ss ih => exact ih _ (findSpanRow_insertSpanRow tbl s sid r h)

/-- C8.  Inserting a span whose span id already exists succeeds and leaves
every column of the previously stored span row unchanged: `InsertTrace`
never alters an existing span row, and on a span-id conflict `insertSpan`
returns the table identically. -/
theorem insertSpan_conflict_ignored :
    (∀ (db : TraceDb) (t : Trace) (sid : String) (s : Span),
      findSpanRow db.spans sid = some s →
      findSpanRow (insertTrace db t).spans sid = some s) ∧
    (∀ (tbl : List Span) (s : Span),
      tbl.any (fun x => x.spanID == s.spanID) = true →
      insertSpanRow tbl s = tbl) := by
  constructor
  · intro db t sid s h
    exact findSpanRow_foldl t.spans db.spans sid s h
  · intro tbl s h
    unfold insertSpanRow
    rw [if_pos h]

/-- Witness for C8: re-ingesting span `s1` with different column values
leaves the stored row untouched. -/
theorem insertSpan_conflict_ignored_witness :
    findSpanRow (insertTrace dbC8 tC8).spans "s1" = some spanRowC8 ∧
    insertSpanRow [spanRowC8] spanDupC8 = [spanRowC8] :=
  ⟨insertSpan_conflict_ignored.1 dbC8 tC8 "s1" spanRowC8 rfl,
   insertSpan_conflict_ignored.2 [spanRowC8] spanDupC8 rfl⟩

/-- Key-preserving overwrite finds the new value at the written key. -/
theorem lookup_mapset_self (es : AttrEntries) (k : String) (v : AttrValue)
    (hc : es.any (fun p => p.1 == k) = true) :
    entriesLookup (es.map (fun p => if p.1 == k then (k, v) else p)) k = some v := by
  induction es with
  | nil => simp at hc
  | cons p t ih =>
    by_cases hp : (p.1 == k) = true
    · unfold entriesLookup
      rw [List.map_cons, if_pos hp,
        List.find?_cons_of_pos (p := fun (q : String × AttrValue) => q.1 == k) _
          (by simp)]
      rfl
    · unfold entriesLookup at ih ⊢
      rw [List.map_cons, if_neg hp,
        List.find?_cons_of_neg (p := fun (q : String × AttrValue) => q.1 == k) _ hp]
      exact ih (by simpa [List.any_cons, hp] using hc)

/-- Key-preserving overwrite leaves lookups of other keys unchanged. -/
theorem lookup_mapset_other (es : AttrEntries) (k : String) (v : AttrValue)
    (q : String) (hne : q ≠ k) :
    entriesLookup (es.map (fun p => if p.1 == k then (k, v) else p)) q
      = entriesLookup es q := by
  induction es with
  | nil => rfl
  | cons p t ih =>
    unfold entriesLookup at ih ⊢
    by_cases hp : (p.1 == k) = true
    · have hpk : p.1 = k := by simpa using hp
      have h1 : ¬ (((k, v).1 == q) = true) := by
        simp only [beq_iff_eq]
        exact fun hh => hne (hh.symm)
      have h2 : ¬ ((p.1 == q) = true) := by
        simp only [beq_iff_eq, hpk]
        exact fun hh => hne (hh.symm)
      rw [List.map_cons, if_pos hp,
        List.find?_cons_of_neg (p := fun (w : String × AttrValue) => w.1 == q) _ h1,
        List.find?_cons_of_neg (p := fun (w : String × AttrValue) => w.1 == q) _ h2]
      exact ih
    · rw [List.map_cons, if_neg hp]
      by_cases hq : (p.1 == q) = true
      · rw [List.find?_cons_of_pos (p := fun (w : String × AttrValue) => w.1 == q) _ hq,
          List.find?_cons_of_pos (p := fun (w : String × AttrValue) => w.1 == q) _ hq]
      · rw [List.find?_cons_of_neg (p := fun (w : String × AttrValue) => w.1 == q) _ hq,
          List.find?_cons_of_neg (p := fun (w : String × AttrValue) => w.1 == q) _ hq]
        exact ih

/-- Characterisation of Go map assignment by lookups. -/
theorem entriesLookup_entriesSet (es : AttrEntries) (k : String) (v : AttrValue)
    (q : String) :
    entriesLookup (entriesSet es k v) q
      = if q = k then some v else entriesLookup es q := by
  by_cases hq : q = k
  · rw [if_pos hq, hq]
    unfold entriesSet
    by_cases hc : es.any (fun p => p.1 == k) = true
    · rw [if_pos hc]
      exact lookup_mapset_self es k v hc
    · rw [if_neg hc]
      unfold entriesLookup
      rw [List.find?_append]
      have hnone : es.find? (fun p => p.1 == k) = none := by
        rw [List.find?_eq_none]
        intro x hx hpx
        exact hc (List.any_eq_true.2 ⟨x, hx, hpx⟩)
      rw [hnone]
      simp [List.find?]
  · rw [if_neg hq]
    unfold entriesSet
    by_cases hc : es.any (fun p => p.1 == k) = true
    · rw [if_pos hc]
      exact lookup_mapset_other es k v q hq
    · rw [if_neg hc]
      unfold entriesLookup
      rw [List.find?_append]
      have htl : ([(k, v)].find? (fun p => p.1 == q)) = none := by
        have hkq : ¬ ((k == q) = true) := by
          simp only [beq_iff_eq]
          exact fun hh => hq (hh.symm)
        simp [List.find?, hkq]
      rw [htl, Option.or_none]

/-- Lookup through the copy loop of `mergeAttributes`: the last written
occurrence wins over the accumulator. -/
theorem lookup_foldl_set (l : AttrEntries) (acc : AttrEntries) (k : String) :
    entriesLookup (l.foldl (fun a p => entriesSet a p.1 p.2) acc) k
      = ((l.reverse.find? (fun p => p.1 == k)).map (fun p => p.2)).or
          (entriesLookup acc k) := by
  induction l generalizing acc with
  | nil => simp
  | cons p t ih =>
    rw [List.foldl_cons, ih, entriesLookup_entriesSet, List.reverse_cons,
      List.find?_append]
    cases hfind : t.reverse.find? (fun w => w.1 == k) with
    | none =>
      simp only [Option.map_none', Option.none_or]
      by_cases hk : k = p.1
      · have hbeq : (p.1 == k) = true := by simp [hk]
        rw [if_pos hk]
        simp [List.find?, hbeq]
      · have hbeq : ¬ ((p.1 == k) = true) := by
          simp only [beq_iff_eq]
          exact fun hh => hk (hh.symm)
        rw [if_neg hk]
        simp [List.find?, hbeq]
    | some w =>
      rfl

/-- On a list with pairwise distinct keys, searching from the back and the
front agree. -/
theorem find?_reverse_nodupkeys (l : AttrEntries) (k : String)
    (h : (l.map Prod.fst).Nodup) :
    l.reverse.find? (fun p => p.1 == k) = l.find? (fun p => p.1 == k) := by
  induction l with
  | nil => rfl
  | cons p t ih =>
    rw [List.reverse_cons, List.find?_append]
    simp only [List.map_cons, List.nodup_cons] at h
    obtain ⟨hnotin, hnd⟩ := h
    by_cases hp : (p.1 == k) = true
    · have hpk : p.1 = k := by simpa using hp
      have htnone : t.find? (fun w => w.1 == k) = none := by
        rw [List.find?_eq_none]
        intro x hx hqx
        have hxk : x.1 = k := by simpa using hqx
        exact hnotin (by
          rw [hpk, ← hxk]
          exact List.mem_map_of_mem Prod.fst hx)
      rw [ih hnd, htnone,
        List.find?_cons_of_pos (p := fun (w : String × AttrValue) => w.1 == k) _ hp]
      simp [List.find?, hp, Option.or]
    · have htl : [p].find? (fun w => w.1 == k) = none := by
        simp [List.find?, hp]
      rw [ih hnd, htl, Option.or_none,
        List.find?_cons_of_neg (p := fun (w : String × AttrValue) => w.1 == k) _ hp]

/-- Lookup characterisation of the merge result: the second map's value wins
whenever the key is present there. -/
theorem mergeEntries_lookup (e1 e2 : AttrEntries) (k : String)
    (h1 : (e1.map Prod.fst).Nodup) (h2 : (e2.map Prod.fst).Nodup) :
    entriesLookup (mergeEntries (some e1) (some e2)) k
      = (entriesLookup e2 k).or (entriesLookup e1 k) := by
  show entriesLookup ((e1 ++ e2).foldl (fun a p => entriesSet a p.1 p.2) []) k = _
  rw [lookup_foldl_set]
  rw [show entriesLookup [] k = none from rfl, Option.or_none, List.reverse_append,
    List.find?_append, find?_reverse_nodupkeys e2 k h2, find?_reverse_nodupkeys e1 k h1]
  unfold entriesLookup
  cases hfe : e2.find? (fun w => w.1 == k) with
  | none => simp [Option.none_or]
  | some w => rfl

/-- A cell present in the heap is still found after appending a fresh cell. -/
theorem heapFind_extend (h : MapHeap) (cell : Nat × AttrEntries) (r : Nat)
    (e : AttrEntries) (hf : heapFind h r = some e) :
    heapFind ⟨h.next + 1, h.cells ++ [cell]⟩ r = some e := by
  unfold heapFind at hf ⊢
  rcases hfind : h.cells.find? (fun c => c.1 == r) with _ | c
  · rw [hfind] at hf
    simp at hf
  · rw [hfind] at hf
    rw [List.find?_append, hfind]
    simpa [Option.or] using hf

/-- The freshly appended cell is found at the fresh reference when every old
cell has a smaller id. -/
theorem heapFind_fresh (h : MapHeap) (es : AttrEntries)
    (hwf : ∀ c ∈ h.cells, c.1 < h.next) :
    heapFind ⟨h.next + 1, h.cells ++ [(h.next, es)]⟩ h.next = some es := by
  unfold heapFind
  rw [List.find?_append]
  have hnone : h.cells.find? (fun c => c.1 == h.next) = none := by
    rw [List.find?_eq_none]
    intro c hc hbeq
    have hlt := hwf c hc
    have hceq : c.1 = h.next := by simpa using hbeq
    omega
  rw [hnone]
  simp [List.find?, Option.or]

/-- C9.  `mergeAttributes` builds a fresh map containing every key of both
inputs with the second input winning on collisions, and mutates neither
input: both original heap cells still dereference to their old entries, and
the result cell's lookups are the second map's falling back to the first's
(every key of either map is therefore present). -/
theorem mergeAttributes_no_mutation (h : MapHeap) (r1 r2 : Nat)
    (e1 e2 : AttrEntries)
    (hwf : ∀ c ∈ h.cells, c.1 < h.next)
    (h1 : heapFind h r1 = some e1) (h2 : heapFind h r2 = some e2)
    (hnd1 : (e1.map Prod.fst).Nodup) (hnd2 : (e2.map Prod.fst).Nodup) :
    heapFind (mergeAttributesH h (some r1) (some r2)).1 r1 = some e1 ∧
    heapFind (mergeAttributesH h (some r1) (some r2)).1 r2 = some e2 ∧
    heapFind (mergeAttributesH h (some r1) (some r2)).1
        (mergeAttributesH h (some r1) (some r2)).2
      = some (mergeEntries (some e1) (some e2)) ∧
    (∀ k, entriesLookup (mergeEntries (some e1) (some e2)) k
      = (entriesLookup e2 k).or (entriesLookup e1 k)) := by
  refine ⟨?_, ?_, ?_, fun k => mergeEntries_lookup e1 e2 k hnd1 hnd2⟩
  · exact heapFind_extend h _ r1 e1 h1
  · exact heapFind_extend h _ r2 e2 h2
  · have hb1 : (some r1).bind (heapFind h) = some e1 := h1
    have hb2 : (some r2).bind (heapFind h) = some e2 := h2
    simp only [mergeAttributesH, Option.some_bind]
    rw [h1, h2]
    exact heapFind_fresh h _ hwf

/-- Witness for C9 on the two concrete maps, with the collision key `a`. -/
theorem mergeAttributes_no_mutation_witness :
    heapFind (mergeAttributesH heapC9 (some 0) (some 1)).1 0 = some entriesC9a ∧
    heapFind (mergeAttributesH heapC9 (some 0) (some 1)).1 1 = some entriesC9b ∧
    entriesLookup (mergeEntries (some entriesC9a) (some entriesC9b)) "a"
      = (entriesLookup entriesC9b "a").or (entriesLookup entriesC9a "a") := by
  have h := mergeAttributes_no_mutation heapC9 0 1 entriesC9a entriesC9b
    (by decide) rfl rfl (by decide) (by decide)
  exact ⟨h.1, h.2.1, h.2.2.2 "a"⟩

end OtelFront
